import Mathlib

/-!
Verification of the reconciliation core of the tilt repository: the
Kubernetes pod/event watchers (`internal/engine/k8swatch`), the engine pod
reconciler (`internal/engine/upper`-style handlers), the pod-log stream
controller (`internal/engine/runtimelog`) and the port-forward controller
(`internal/engine/portforward`).

The Go code is shallowly embedded below.  Go maps are represented as
association lists (`List (String × α)`) with explicit lookup / insert /
update operations; Go `time.Time` values are represented as natural-number
timestamps (zero meaning the zero time); Kubernetes library types are
reduced to the fields this code reads.  Functions from the repository that
are not part of the analysed sources (helpers of the `store` package such
as `MostRecentPod`) are modelled from the specification text and marked as
such in their doc comments.
-/

namespace Tilt

/-- Lookup in an association list, representing a read of a Go map. -/
def alookup {α : Type} (k : String) : List (String × α) → Option α
  | [] => none
  | (k', v) :: rest => if k' = k then some v else alookup k rest

/-- Insert-or-overwrite in an association list, representing a Go map write. -/
def ainsert {α : Type} (k : String) (v : α) : List (String × α) → List (String × α)
  | [] => [(k, v)]
  | (k', v') :: rest => if k' = k then (k, v) :: rest else (k', v') :: ainsert k v rest

/-- Update the value stored at a key when the key is present; no-op otherwise.
This represents a Go mutation through a pointer previously obtained from the
map: if the entry has meanwhile been deleted, the mutation does not
re-insert it. -/
def aupdate {α : Type} (k : String) (f : α → α) : List (String × α) → List (String × α)
  | [] => []
  | (k', v') :: rest => if k' = k then (k', f v') :: rest else (k', v') :: aupdate k f rest

/-- Delete a key from an association list, representing a Go map delete. -/
def aerase {α : Type} (k : String) : List (String × α) → List (String × α)
  | [] => []
  | (k', v') :: rest => if k' = k then aerase k rest else (k', v') :: aerase k rest

/-- A container as tracked by the engine (`store.Container`): name, id,
exposed ports, readiness/run status and restart count. -/
structure Container where
  name : String
  id : String
  ports : List Nat
  ready : Bool
  running : Bool
  terminated : Bool
  restarts : Nat
deriving DecidableEq, Repr

/-- Kubernetes pod phase (`v1.PodPhase`), restricted to the constants the
analysed code compares against. -/
inductive PodPhase
  | pending
  | running
  | succeeded
  | failed
  | unknown
deriving DecidableEq, Repr

/-- A tracked pod record (`store.Pod`): the per-resource runtime record
mutated by `handlePodChangeAction`. -/
structure Pod where
  podID : String
  startedAt : Nat
  status : String
  namespaceName : String
  spanID : String
  deleting : Bool
  phase : PodPhase
  statusMessages : List String
  initContainers : List Container
  containers : List Container
  baselineRestarts : Nat
deriving DecidableEq, Repr

/-- The zero `store.Pod` value. -/
def emptyPod : Pod :=
  { podID := ""
    startedAt := 0
    status := ""
    namespaceName := ""
    spanID := ""
    deleting := false
    phase := PodPhase.unknown
    statusMessages := []
    initContainers := []
    containers := []
    baselineRestarts := 0 }

/-- An observed Kubernetes pod (`v1.Pod`) reduced to the fields the analysed
code reads.  The container lists stand for the output of the external
conversion `k8sconv.PodContainers` on the init/regular container statuses;
`statusString` and `statusMessages` stand for the outputs of
`PodStatusToString` / `PodStatusErrorMessages`, which no claim depends on;
`templateHashOK` is modelled from the spec: it stands for
`runtime.HasOKPodTemplateSpecHash(pod)`, i.e. whether the pod comes from the
most recent deploy of its resource. -/
structure InputPod where
  uid : String
  podName : String
  creationTimestamp : Nat
  deletionTimestampNonZero : Bool
  phase : PodPhase
  statusString : String
  statusMessages : List String
  namespaceName : String
  labels : List (String × String)
  templateHashOK : Bool
  initContainers : List Container
  containers : List Container
deriving DecidableEq, Repr

/-- Per-resource Kubernetes runtime state (`store.K8sRuntimeState`): the
tracked-pod map, the ancestor UID adopted for the current pod set, the set
of UIDs deployed for the resource, and the last ready-or-succeeded time. -/
structure K8sRuntimeState where
  pods : List (String × Pod)
  podAncestorUID : String
  deployedUIDSet : List String
  lastReadyOrSucceededTime : Nat
deriving DecidableEq, Repr

/-- A port-forward spec (`model.PortForward`). -/
structure PortForward where
  localPort : Nat
  containerPort : Nat
  host : String
deriving DecidableEq, Repr

/-- A manifest (`model.Manifest`) reduced to the fields the analysed code
reads: its name and the port-forward specs of its Kubernetes target. -/
structure Manifest where
  name : String
  portForwards : List PortForward
deriving DecidableEq, Repr

/-- Per-resource engine state (`store.ManifestState`) reduced to the fields
the analysed code reads. -/
structure ManifestState where
  name : String
  runtime : K8sRuntimeState
  needsRebuildFromCrash : Bool
  liveUpdatedContainerIDs : List String
deriving DecidableEq, Repr

/-- A manifest together with its state (`store.ManifestTarget`). -/
structure ManifestTarget where
  manifest : Manifest
  state : ManifestState
deriving DecidableEq, Repr

/-- The engine state (`store.EngineState`) reduced to the manifest-target
map, ordered as `state.Targets()` returns them. -/
structure EngineState where
  manifestTargets : List (String × ManifestTarget)
deriving DecidableEq, Repr

/-- A pod-change action (`k8swatch.PodChangeAction`). -/
structure PodChangeAction where
  pod : InputPod
  manifestName : String
  matchedAncestorUID : String
deriving DecidableEq, Repr

/-- A user-visible log emission of the pod reconciler: container-restart
warnings, the missing-container-port port-forward warning, and the
crash-rebuild warning. -/
inductive LogEntry
  | containerRestart (podID : String) (containerName : String)
  | portForwardWarning (manifestName : String) (podID : String)
  | crashRebuild (manifestName : String)
deriving DecidableEq, Repr

/-- Test for the restart-warning constructor of `LogEntry`. -/
def LogEntry.isContainerRestart : LogEntry → Bool
  | LogEntry.containerRestart _ _ => true
  | _ => false

/-- Modelled from the spec: `store.Pod.AllContainerRestarts`, the total
restart count of the pod over init and regular containers (the count
`baselineRestarts` is frozen to on first observation). -/
def allContainerRestarts (p : Pod) : Nat :=
  ((p.initContainers ++ p.containers).map (fun c => c.restarts)).sum

/-- Modelled from the spec: `store.Pod.AllContainersReady`, whether the pod
has containers and all of them are ready.  No analysed claim depends on it;
it only selects the `LastReadyOrSucceededTime` update. -/
def allContainersReady (p : Pod) : Bool :=
  !p.containers.isEmpty && p.containers.all (fun c => c.ready)

/-- Modelled from the spec: `store.Pod.AllContainerPorts`, the container
ports exposed by the pod (concatenated over its regular containers). -/
def allContainerPorts (p : Pod) : List Nat :=
  p.containers.flatMap (fun c => c.ports)

/-- Modelled from the spec: `runtimelog.SpanIDForPod`, the span identifier
used for log correlation of a pod. -/
def spanIDForPod (podID : String) : String :=
  "pod:" ++ podID

/-- Modelled from the spec: `store.ManifestState.MostRecentPod`, the
most-recently-created tracked pod of the resource (the zero pod when no pod
is tracked). -/
def mostRecentPod (pods : List (String × Pod)) : Pod :=
  (pods.foldl
    (fun best kv =>
      match best with
      | none => some kv.2
      | some b => if kv.2.startedAt > b.startedAt then some kv.2 else some b)
    none).getD emptyPod

/-- Modelled from the spec: `store.AllRunningContainers`, the containers of
the most recent pod of the resource that are currently running. -/
def allRunningContainers (mt : ManifestTarget) : List Container :=
  (mostRecentPod mt.state.runtime.pods).containers.filter (fun c => c.running)

/-- `restartedContainerNames` (internal/engine, pod reconciler): walks the
new container list by position, stops at the end of the old list, skips
positions whose container name changed, and collects the names whose
restart count strictly increased. -/
def restartedContainerNames : List Container → List Container → List String
  | _, [] => []
  | [], _ :: _ => []
  | existing :: es, c :: cs =>
    if existing.name = c.name ∧ c.restarts > existing.restarts then
      c.name :: restartedContainerNames es cs
    else
      restartedContainerNames es cs

/-- `matchPodChangeToManifest`: find the manifest target named by the
action; reject actions naming an unknown manifest, and actions whose
non-empty matched ancestor UID is no longer in the deployed UID set. -/
def matchPodChangeToManifest (state : EngineState) (action : PodChangeAction) :
    Option ManifestTarget :=
  match alookup action.manifestName state.manifestTargets with
  | none => none
  | some mt =>
    if action.matchedAncestorUID ≠ "" ∧
        ¬ mt.state.runtime.deployedUIDSet.contains action.matchedAncestorUID then
      none
    else
      some mt

/-- `maybeTrackPod`: returns the tracked pod record for the action (if any),
whether it is newly created, and the updated manifest state.  Pods not from
the current deploy are only looked up; for current-deploy pods, a missing or
changed ancestor UID clears the tracked-pod map and adopts the new ancestor
UID before the pod is (re)tracked. -/
def maybeTrackPod (ms : ManifestState) (action : PodChangeAction) :
    Option Pod × Bool × ManifestState :=
  let pod := action.pod
  let podID := pod.podName
  let runtime := ms.runtime
  if !pod.templateHashOK then
    (alookup podID runtime.pods, false, ms)
  else
    let matchedAncestorUID := action.matchedAncestorUID
    let isAncestorMatch := matchedAncestorUID ≠ ""
    let runtime :=
      if runtime.podAncestorUID = "" ∨
          (isAncestorMatch ∧ runtime.podAncestorUID ≠ matchedAncestorUID) then
        { runtime with pods := [], podAncestorUID := matchedAncestorUID }
      else
        runtime
    let ms := { ms with runtime := runtime }
    match alookup podID runtime.pods with
    | none =>
      let podInfo := { emptyPod with podID := podID }
      (some podInfo, true,
        { ms with runtime := { runtime with pods := ainsert podID podInfo runtime.pods } })
    | some podInfo => (some podInfo, false, ms)

/-- `prunePods`: remove every pod flagged `Deleting`; then, when more than
one pod remains, delete the first terminated (Succeeded or Failed) pod that
is not the most recent one and return.  The Go loop is unconditionally
terminated by the `return` at its end (the behaviour its own comments call
into question), so at most one terminated pod is removed per call. -/
def prunePods (ms : ManifestState) : ManifestState :=
  let runtime := ms.runtime
  let pods := runtime.pods.filter (fun kv => !kv.2.deleting)
  let pods :=
    if pods.length > 1 then
      let bestPod := mostRecentPod pods
      match pods.find? (fun kv =>
          (kv.2.phase = PodPhase.succeeded ∨ kv.2.phase = PodPhase.failed) ∧
            kv.2.podID ≠ bestPod.podID) with
      | some kv => aerase kv.1 pods
      | none => pods
    else
      pods
  { ms with runtime := { runtime with pods := pods } }

/-- `checkForContainerCrash`: when the resource is not already flagged, any
live-updated container ID that is no longer among the running containers
flags the resource as needing a rebuild from crash, clears the live-update
set and emits a warning log. -/
def checkForContainerCrash (mt : ManifestTarget) : ManifestState × List LogEntry :=
  let ms := mt.state
  if ms.needsRebuildFromCrash then
    (ms, [])
  else
    let runningIDs := (allRunningContainers mt).map (fun c => c.id)
    let hitList := ms.liveUpdatedContainerIDs.filter (fun cID => !runningIDs.contains cID)
    if hitList.isEmpty then
      (ms, [])
    else
      ({ ms with needsRebuildFromCrash := true, liveUpdatedContainerIDs := [] },
        [LogEntry.crashRebuild ms.name])

/-- `populatePortForwards` (internal/engine/portforward): forwards with a
zero container port are resolved against the actual container ports of the
pod — dropped when the pod exposes none, otherwise filled with the first
exposed port unless an exposed port equals the local port, in which case
that port is taken.  Nonzero forwards pass through unchanged.  The loop
body of `populatePortForwards` is factored out here as its step. -/
def populatePortForwardStep (cPorts : List Nat) (forwards : List PortForward)
    (forward : PortForward) : List PortForward :=
  if forward.containerPort = 0 then
    if cPorts.isEmpty then
      forwards
    else
      let forward := { forward with containerPort := cPorts.headD 0 }
      let forward :=
        match cPorts.find? (fun cPort => forward.localPort = cPort) with
        | some cPort => { forward with containerPort := cPort }
        | none => forward
      forwards ++ [forward]
  else
    forwards ++ [forward]

/-- `populatePortForwards`: fold the resolution step over the spec
forwards of the manifest, starting from an empty list. -/
def populatePortForwards (m : Manifest) (pod : Pod) : List PortForward :=
  m.portForwards.foldl (populatePortForwardStep (allContainerPorts pod)) []

/-- `PortForwardsAreValid`: every spec forward survived population. -/
def portForwardsAreValid (m : Manifest) (pod : Pod) : Bool :=
  (populatePortForwards m pod).length = m.portForwards.length

/-- Write the (possibly mutated) tracked pod record back into the pod map
when its entry is still present: Go mutates the record through a pointer
held by the map, so a record pruned from the map is not re-inserted. -/
def msUpdatePod (ms : ManifestState) (podInfo : Pod) : ManifestState :=
  { ms with runtime :=
      { ms.runtime with pods := aupdate podInfo.podID (fun _ => podInfo) ms.runtime.pods } }

/-- The body of `handlePodChangeAction` from the point where a tracked pod
record is available: update the record from the observed pod, prune, emit
restart warnings for already-tracked pods, freeze the restart baseline for
new pods, and run the readiness / port-forward / crash checks.  Returns the
updated manifest state and the log emissions. -/
def applyTrackedPodUpdate (now : Nat) (mt : ManifestTarget) (action : PodChangeAction)
    (podInfo0 : Pod) (isNew : Bool) (ms : ManifestState) : ManifestState × List LogEntry :=
  let pod := action.pod
  let manifest := mt.manifest
  let podInfo1 :=
    { podInfo0 with
        startedAt := pod.creationTimestamp
        status := pod.statusString
        namespaceName := pod.namespaceName
        spanID := spanIDForPod podInfo0.podID
        deleting := pod.deletionTimestampNonZero
        phase := pod.phase
        statusMessages := pod.statusMessages }
  let ms := msUpdatePod ms podInfo1
  let ms := prunePods ms
  let initContainers := pod.initContainers
  let initRestartLogs :=
    if !isNew then
      (restartedContainerNames podInfo1.initContainers initContainers).map
        (fun name => LogEntry.containerRestart podInfo1.podID name)
    else []
  let podInfo2 := { podInfo1 with initContainers := initContainers }
  let ms := msUpdatePod ms podInfo2
  let containers := pod.containers
  let restartLogs :=
    if !isNew then
      (restartedContainerNames podInfo2.containers containers).map
        (fun name => LogEntry.containerRestart podInfo2.podID name)
    else []
  let podInfo3 := { podInfo2 with containers := containers }
  let ms := msUpdatePod ms podInfo3
  let podInfo4 :=
    if isNew then
      { podInfo3 with baselineRestarts := allContainerRestarts podInfo3 }
    else
      podInfo3
  let ms := msUpdatePod ms podInfo4
  let logs := initRestartLogs ++ restartLogs
  if podInfo4.containers.length = 0 then
    (ms, logs)
  else
    let ms :=
      if allContainersReady podInfo4 ∨ podInfo4.phase = PodPhase.succeeded then
        { ms with runtime := { ms.runtime with lastReadyOrSucceededTime := now } }
      else
        ms
    let fwdsValid := portForwardsAreValid manifest podInfo4
    let fwdLogs :=
      if !fwdsValid then [LogEntry.portForwardWarning manifest.name podInfo4.podID]
      else []
    let crashResult := checkForContainerCrash { mt with state := ms }
    (crashResult.1, logs ++ fwdLogs ++ crashResult.2)

/-- `handlePodChangeAction`: the engine-side reconciliation of one triaged
pod update, returning the updated engine state and the list of user-visible
log emissions (the Go code dispatches these through `handleLogAction` and
the context logger).  `now` stands for `time.Now()`.  The Go code mutates
`mt.State` in place through a pointer; writing the updated manifest state
back into the target map models the same effect. -/
def handlePodChangeAction (now : Nat) (state : EngineState) (action : PodChangeAction) :
    EngineState × List LogEntry :=
  match matchPodChangeToManifest state action with
  | none => (state, [])
  | some mt =>
    match maybeTrackPod mt.state action with
    | (none, _, _) => (state, [])
    | (some podInfo0, isNew, ms) =>
      let r := applyTrackedPodUpdate now mt action podInfo0 isNew ms
      ({ manifestTargets :=
          ainsert action.manifestName { mt with state := r.1 } state.manifestTargets },
        r.2)

/-- An extra pod selector of a manifest (`k8swatch.ExtraSelector`).  The
Kubernetes label-selector semantics are external to the repository; a
selector is modelled as a conjunction of required label key/value pairs,
which is what `labels.Selector.Matches` decides for equality selectors. -/
structure ExtraSelector where
  name : String
  requirements : List (String × String)
deriving DecidableEq, Repr

/-- Whether a selector matches the labels of a pod: every required key maps
to the required value. -/
def selectorMatches (sel : ExtraSelector) (podLabels : List (String × String)) : Bool :=
  sel.requirements.all (fun kv => alookup kv.1 podLabels = some kv.2)

/-- The state of the pod watcher (`k8swatch.PodWatcher`) read and written
by `upsertPod` / `triagePodTree`: the deployed-UID index, the descendant
index, the known-pod index and the extra selectors. -/
structure PodWatcherState where
  knownDeployedUIDs : List (String × String)
  knownDescendentPodUIDs : List (String × List String)
  knownPods : List (String × InputPod)
  extraSelectors : List ExtraSelector
deriving DecidableEq, Repr

/-- Add a UID to the set stored at a key of a descendant index, creating
the set when the key is absent (`store.UIDSet.Add` after `NewUIDSet`). -/
def descIndexAdd (index : List (String × List String)) (key uid : String) :
    List (String × List String) :=
  match alookup key index with
  | none => ainsert key [uid] index
  | some set => ainsert key (if set.contains uid then set else set ++ [uid]) index

/-- `PodWatcher.upsertPod`: record the observed pod in the known-pod index. -/
def upsertPod (w : PodWatcherState) (pod : InputPod) : PodWatcherState :=
  { w with knownPods := ainsert pod.uid pod w.knownPods }

/-- `PodWatcher.triagePodTree`: record the pod UID in the descendant index
under every ancestor UID of the owner chain other than the pod itself, then
return the manifest of the first ancestor found in the deployed-UID index
(with that UID), falling back to the first matching extra selector (with an
empty UID), and finally to the empty result.  `objTreeUIDs` is the owner
chain `objTree.UIDs()`, nearest ancestor first. -/
def triagePodTree (w : PodWatcherState) (pod : InputPod) (objTreeUIDs : List String) :
    PodWatcherState × String × String :=
  let uid := pod.uid
  let index := objTreeUIDs.foldl
    (fun index ownerUID =>
      if uid = ownerUID then index else descIndexAdd index ownerUID uid)
    w.knownDescendentPodUIDs
  let w := { w with knownDescendentPodUIDs := index }
  match objTreeUIDs.findSome?
      (fun ownerUID => (alookup ownerUID w.knownDeployedUIDs).map
        (fun mn => (mn, ownerUID))) with
  | some (mn, ownerUID) => (w, mn, ownerUID)
  | none =>
    match w.extraSelectors.find? (fun sel => selectorMatches sel pod.labels) with
    | some sel => (w, sel.name, "")
    | none => (w, "", "")

/-- The receipt path of one pod update in the pod watcher
(`dispatchPodChangesLoop` then `dispatchPodChange`): the pod is recorded in
the known-pod index by `upsertPod` and then triaged by `triagePodTree`. -/
def processPodUpdate (w : PodWatcherState) (pod : InputPod) (objTreeUIDs : List String) :
    PodWatcherState × String × String :=
  triagePodTree (upsertPod w pod) pod objTreeUIDs

/-- An observed Kubernetes event (`v1.Event`) reduced to its UID. -/
structure Event where
  uid : String
deriving DecidableEq, Repr

/-- The state of the event watcher (`k8swatch.EventWatchManager`) read and
written by `triageEventUpdate`. -/
structure EventWatchState where
  knownDeployedUIDs : List (String × String)
  knownDescendentEventUIDs : List (String × List String)
  knownEvents : List (String × Event)
deriving DecidableEq, Repr

/-- `EventWatchManager.triageEventUpdate`: record the event in the
known-event index, record its UID in the descendant index under every
ancestor UID of the involved object tree (with no self-exclusion check),
and return the manifest of the first ancestor found in the deployed-UID
index (the empty name when none matches). -/
def triageEventUpdate (m : EventWatchState) (event : Event) (objTreeUIDs : List String) :
    EventWatchState × String :=
  let uid := event.uid
  let m := { m with knownEvents := ainsert uid event m.knownEvents }
  let index := objTreeUIDs.foldl
    (fun index ownerUID => descIndexAdd index ownerUID uid)
    m.knownDescendentEventUIDs
  let m := { m with knownDescendentEventUIDs := index }
  match objTreeUIDs.findSome? (fun ownerUID => alookup ownerUID m.knownDeployedUIDs) with
  | some mn => (m, mn)
  | none => (m, "")

/-- An active port-forward entry (`portforward.portForwardEntry`), without
the context/cancel handles. -/
structure PFEntry where
  name : String
  namespaceName : String
  podID : String
  forwards : List PortForward
deriving DecidableEq, Repr

/-- The accumulator of the first pass of `portforward.Controller.diff`:
the pod IDs seen in the store state, the active-forward map, and the
toStart / toShutdown lists. -/
structure PFDiffAcc where
  statePods : List String
  activeForwards : List (String × PFEntry)
  toStart : List PFEntry
  toShutdown : List PFEntry
deriving DecidableEq, Repr

/-- One manifest target of the first pass of `portforward.Controller.diff`:
skip targets without a running (or deleting) most-recent pod or without
resolvable forwards; leave value-equal active entries running; otherwise
shut the old entry down (when present) and start a fresh one. -/
def pfDiffStep (acc : PFDiffAcc) (mt : ManifestTarget) : PFDiffAcc :=
  let ms := mt.state
  let pod := mostRecentPod ms.runtime.pods
  let podID := pod.podID
  if podID = "" then acc
  else if pod.phase ≠ PodPhase.running ∧ !pod.deleting then acc
  else
    let forwards := populatePortForwards mt.manifest pod
    if forwards.isEmpty then acc
    else
      let statePods := podID :: acc.statePods
      let entry : PFEntry :=
        { name := ms.name
          namespaceName := pod.namespaceName
          podID := podID
          forwards := forwards }
      match alookup podID acc.activeForwards with
      | some oldEntry =>
        if oldEntry.forwards = forwards then
          { acc with statePods := statePods }
        else
          { statePods := statePods
            activeForwards := ainsert podID entry acc.activeForwards
            toStart := acc.toStart ++ [entry]
            toShutdown := acc.toShutdown ++ [oldEntry] }
      | none =>
        { statePods := statePods
          activeForwards := ainsert podID entry acc.activeForwards
          toStart := acc.toStart ++ [entry]
          toShutdown := acc.toShutdown }

/-- `portforward.Controller.diff`: resolve desired forwards per target, then
shut down every active entry whose pod ID no longer appears in the store
state.  Returns the toStart / toShutdown lists and the updated
active-forward map. -/
def pfDiff (state : EngineState) (activeForwards : List (String × PFEntry)) :
    List PFEntry × List PFEntry × List (String × PFEntry) :=
  let acc := (state.manifestTargets.map (fun kv => kv.2)).foldl pfDiffStep
    { statePods := []
      activeForwards := activeForwards
      toStart := []
      toShutdown := [] }
  let stale := acc.activeForwards.filter (fun kv => !acc.statePods.contains kv.1)
  (acc.toStart,
    acc.toShutdown ++ stale.map (fun kv => kv.2),
    acc.activeForwards.filter (fun kv => acc.statePods.contains kv.1))

/-- `runtimelog.podLogHealthCheck`: the health-check interval, in seconds. -/
def podLogHealthCheck : Nat := 15

/-- `runtimelog.podLogReconnectGap`: the reconnect gap, in seconds. -/
def podLogReconnectGap : Nat := 2

/-- The state of one running log stream observed by the health-check ticker
of `PodLogStreamController.consumeLogs`: the time the current connection
started reading from, the last successful read time (zero when no read has
happened), and whether the stream has been cancelled for a retry. -/
structure LogStreamState where
  startReadTime : Nat
  lastRead : Nat
  retry : Bool
  cancelled : Bool
deriving DecidableEq, Repr

/-- One tick of the health-check ticker in `consumeLogs`: when the last
read time is non-zero and at least the health-check interval old, mark the
stream for retry with the start-read time advanced to the last read plus
the reconnect gap, and cancel the current connection. -/
def healthCheckTick (s : LogStreamState) (now : Nat) : LogStreamState :=
  if s.lastRead = 0 ∨ now - s.lastRead < podLogHealthCheck then
    s
  else
    { s with
        retry := true
        startReadTime := s.lastRead + podLogReconnectGap
        cancelled := true }

/-! ## Claim-side reference definitions

The following definitions restate, in the words of the specification, the
behaviour the claims ascribe to the source functions above.  They are used
on the right-hand side of the refinement theorems and are deliberately
written with different combinators than the source translations. -/

/-- The specified per-position restart comparison: pair old and new
container lists position by position (truncating at the shorter), keep the
positions whose container name is unchanged and whose restart count
strictly increased, and collect the container names. -/
def restartedContainerNamesSpec (existing newCs : List Container) : List String :=
  ((newCs.zip existing).filter
    (fun p => p.1.name == p.2.name && p.2.restarts < p.1.restarts)).map
    (fun p => p.1.name)

/-- The specified resolution of one port-forward spec against the container
ports exposed by the pod: a nonzero container port passes through; a zero
container port is dropped when the pod exposes no port, filled with the
port equal to the local port when one exists, and with the first exposed
port otherwise. -/
def resolvePortForwardSpec (cPorts : List Nat) (forward : PortForward) : Option PortForward :=
  if forward.containerPort ≠ 0 then
    some forward
  else if cPorts.isEmpty then
    none
  else if forward.localPort ∈ cPorts then
    some { forward with containerPort := forward.localPort }
  else
    some { forward with containerPort := cPorts.headD 0 }

/-- The specified port-forward population: resolve each spec forward in
spec order, dropping the unresolvable ones. -/
def populatePortForwardsSpec (m : Manifest) (pod : Pod) : List PortForward :=
  m.portForwards.filterMap (resolvePortForwardSpec (allContainerPorts pod))

/-- The specified ancestor walk: the first UID of the owner chain (nearest
ancestor first) present in the deployed-UID index, together with its
manifest name. -/
def firstAncestorMatch (deployed : List (String × String)) :
    List String → Option (String × String)
  | [] => none
  | u :: rest =>
    match alookup u deployed with
    | some mn => some (mn, u)
    | none => firstAncestorMatch deployed rest

/-- The specified triage result: the first deployed ancestor when one
exists; otherwise the first extra selector matching the pod labels, with an
empty ancestor UID; otherwise the empty result. -/
def triageResultSpec (deployed : List (String × String)) (selectors : List ExtraSelector)
    (objTreeUIDs : List String) (podLabels : List (String × String)) : String × String :=
  match firstAncestorMatch deployed objTreeUIDs with
  | some r => r
  | none =>
    match selectors.find? (fun sel => selectorMatches sel podLabels) with
    | some sel => (sel.name, "")
    | none => ("", "")

/-- Membership in a descendant index: whether the set stored under `key`
contains `uid`. -/
def descIndexHas (index : List (String × List String)) (key uid : String) : Bool :=
  match alookup key index with
  | none => false
  | some set => set.contains uid

/-- The descendant-index update loop of `triagePodTree`: record `uid` under
every chain UID other than `uid` itself. -/
def podDescFold (uid : String) (idx : List (String × List String))
    (chain : List String) : List (String × List String) :=
  chain.foldl
    (fun index ownerUID =>
      if uid = ownerUID then index else descIndexAdd index ownerUID uid)
    idx

/-- The descendant-index update loop of `triageEventUpdate`: record `uid`
under every chain UID, with no self-exclusion. -/
def eventDescFold (uid : String) (idx : List (String × List String))
    (chain : List String) : List (String × List String) :=
  chain.foldl (fun index ownerUID => descIndexAdd index ownerUID uid) idx

/-- The most recent pod of a manifest target, as read by the port-forward
diff pass. -/
def pfTargetPod (mt : ManifestTarget) : Pod :=
  mostRecentPod mt.state.runtime.pods

/-- Whether the port-forward diff pass produces work for a target: the
most-recent pod has an ID, is running (or deleting), and resolves at least
one forward. -/
def pfEligible (mt : ManifestTarget) : Bool :=
  let pod := pfTargetPod mt
  !(decide (pod.podID = "")) &&
    !(decide (pod.phase ≠ PodPhase.running ∧ !pod.deleting)) &&
    !(populatePortForwards mt.manifest pod).isEmpty

/-- The port-forward entry the diff pass creates for an eligible target. -/
def pfEntryOf (mt : ManifestTarget) : PFEntry :=
  { name := mt.state.name
    namespaceName := (pfTargetPod mt).namespaceName
    podID := (pfTargetPod mt).podID
    forwards := populatePortForwards mt.manifest (pfTargetPod mt) }

/-- The pod IDs of the targets the port-forward diff pass produces work
for, in target order. -/
def pfEligibleIDs (ts : List ManifestTarget) : List String :=
  ts.filterMap (fun mt => if pfEligible mt then some (pfTargetPod mt).podID else none)

/-! ## Concrete states used by counterexamples and witnesses -/

/-- A terminated (Succeeded) pod created at time 1. -/
def podSucceededA : Pod :=
  { emptyPod with podID := "fe-a", startedAt := 1, phase := PodPhase.succeeded }

/-- A terminated (Succeeded) pod created at time 2. -/
def podSucceededB : Pod :=
  { emptyPod with podID := "fe-b", startedAt := 2, phase := PodPhase.succeeded }

/-- A running pod created at time 3. -/
def podRunningC : Pod :=
  { emptyPod with podID := "fe-c", startedAt := 3, phase := PodPhase.running }

/-- A manifest state tracking two terminated pods and one running pod,
none of them deleting: the failing input for the pruning claim. -/
def pruneExampleMS : ManifestState :=
  { name := "fe"
    runtime :=
      { pods := [("fe-a", podSucceededA), ("fe-b", podSucceededB), ("fe-c", podRunningC)]
        podAncestorUID := "u1"
        deployedUIDSet := ["u1"]
        lastReadyOrSucceededTime := 0 }
    needsRebuildFromCrash := false
    liveUpdatedContainerIDs := [] }

/-- Count of pods in a pod map that are neither Succeeded nor Failed. -/
def nonTerminatedCount (pods : List (String × Pod)) : Nat :=
  (pods.filter (fun kv =>
    !(kv.2.phase = PodPhase.succeeded ∨ kv.2.phase = PodPhase.failed : Bool))).length

/-- A running container with ID `a`. -/
def crashExampleContainer : Container :=
  { name := "main"
    id := "a"
    ports := []
    ready := true
    running := true
    terminated := false
    restarts := 0 }

/-- A target that live-updated containers `a` and `b` while only `a` is
still running. -/
def crashExampleMT : ManifestTarget :=
  { manifest := { name := "fe", portForwards := [] }
    state :=
      { name := "fe"
        runtime :=
          { pods := [("p1",
              { emptyPod with
                  podID := "p1"
                  phase := PodPhase.running
                  containers := [crashExampleContainer] })]
            podAncestorUID := ""
            deployedUIDSet := []
            lastReadyOrSucceededTime := 0 }
        needsRebuildFromCrash := false
        liveUpdatedContainerIDs := ["a", "b"] } }

/-- An observed pod from the current deploy, in the `default` namespace. -/
def examplePod : InputPod :=
  { uid := "pu"
    podName := "p1"
    creationTimestamp := 5
    deletionTimestampNonZero := false
    phase := PodPhase.running
    statusString := "Running"
    statusMessages := []
    namespaceName := "default"
    labels := []
    templateHashOK := true
    initContainers := []
    containers := [] }

/-- A manifest target whose resource deployed UID `u1` only. -/
def staleExampleMT : ManifestTarget :=
  { manifest := { name := "fe", portForwards := [] }
    state :=
      { name := "fe"
        runtime :=
          { pods := []
            podAncestorUID := "u1"
            deployedUIDSet := ["u1"]
            lastReadyOrSucceededTime := 0 }
        needsRebuildFromCrash := false
        liveUpdatedContainerIDs := [] } }

/-- An engine state holding only the target of `staleExampleMT`. -/
def staleExampleState : EngineState :=
  { manifestTargets := [("fe", staleExampleMT)] }

/-- A pod-change action whose matched ancestor UID `u2` is no longer
deployed for resource `fe`. -/
def staleExampleAction : PodChangeAction :=
  { pod := examplePod
    manifestName := "fe"
    matchedAncestorUID := "u2" }

/-- A manifest state currently tracking ancestor `u1` with one pod. -/
def adoptExampleMS : ManifestState :=
  { name := "fe"
    runtime :=
      { pods := [("old-pod", { emptyPod with podID := "old-pod", startedAt := 1 })]
        podAncestorUID := "u1"
        deployedUIDSet := ["u1", "u2"]
        lastReadyOrSucceededTime := 0 }
    needsRebuildFromCrash := false
    liveUpdatedContainerIDs := [] }

/-- A pod-change action for the same resource carrying the new ancestor
UID `u2`. -/
def adoptExampleAction : PodChangeAction :=
  { pod := examplePod
    manifestName := "fe"
    matchedAncestorUID := "u2" }

/-- The container of the tracked pod in the restart example: one restart
observed so far. -/
def restartExampleOldContainer : Container :=
  { name := "main"
    id := "c1"
    ports := []
    ready := true
    running := true
    terminated := false
    restarts := 1 }

/-- The same container as newly observed: restart count increased to 3. -/
def restartExampleNewContainer : Container :=
  { restartExampleOldContainer with id := "c2", restarts := 3 }

/-- The tracked pod `p1` of the restart example. -/
def restartExampleTrackedPod : Pod :=
  { emptyPod with
      podID := "p1"
      phase := PodPhase.running
      containers := [restartExampleOldContainer] }

/-- The manifest target of the restart example: resource `fe` tracking
pod `p1` under ancestor `u1`. -/
def restartExampleMT : ManifestTarget :=
  { manifest := { name := "fe", portForwards := [] }
    state :=
      { name := "fe"
        runtime :=
          { pods := [("p1", restartExampleTrackedPod)]
            podAncestorUID := "u1"
            deployedUIDSet := ["u1"]
            lastReadyOrSucceededTime := 0 }
        needsRebuildFromCrash := false
        liveUpdatedContainerIDs := [] } }

/-- The engine state of the restart example. -/
def restartExampleState : EngineState :=
  { manifestTargets := [("fe", restartExampleMT)] }

/-- The restart-example action: pod `p1` observed again with its container
restart count increased from 1 to 3. -/
def restartExampleAction : PodChangeAction :=
  { pod :=
      { examplePod with
          containers := [restartExampleNewContainer] }
    manifestName := "fe"
    matchedAncestorUID := "u1" }

/-- A running pod named `p`, shared by the two targets of the port-forward
counterexample. -/
def pfExamplePod : Pod :=
  { emptyPod with
      podID := "p"
      startedAt := 1
      phase := PodPhase.running
      namespaceName := "default" }

/-- First port-forward target: resource `m1` forwarding local port 100 to
container port 80 on pod `p`. -/
def pfExampleMT1 : ManifestTarget :=
  { manifest :=
      { name := "m1"
        portForwards := [{ localPort := 100, containerPort := 80, host := "" }] }
    state :=
      { name := "m1"
        runtime :=
          { pods := [("p", pfExamplePod)]
            podAncestorUID := ""
            deployedUIDSet := []
            lastReadyOrSucceededTime := 0 }
        needsRebuildFromCrash := false
        liveUpdatedContainerIDs := [] } }

/-- Second port-forward target: resource `m2` forwarding local port 200 to
container port 90, whose most-recent pod has the same pod ID `p`. -/
def pfExampleMT2 : ManifestTarget :=
  { manifest :=
      { name := "m2"
        portForwards := [{ localPort := 200, containerPort := 90, host := "" }] }
    state :=
      { name := "m2"
        runtime :=
          { pods := [("p", pfExamplePod)]
            podAncestorUID := ""
            deployedUIDSet := []
            lastReadyOrSucceededTime := 0 }
        needsRebuildFromCrash := false
        liveUpdatedContainerIDs := [] } }

/-- A store state in which two manifest targets resolve different forwards
for the same pod ID: the counterexample to unconditional idempotence. -/
def pfExampleState : EngineState :=
  { manifestTargets := [("m1", pfExampleMT1), ("m2", pfExampleMT2)] }

/-- A store state with a single port-forward target. -/
def pfSingleState : EngineState :=
  { manifestTargets := [("m1", pfExampleMT1)] }

/-! ## Association-list lemmas -/

theorem alookup_ainsert_self {α : Type} (k : String) (v : α) (l : List (String × α)) :
    alookup k (ainsert k v l) = some v := by
  induction l with
  | nil => simp [ainsert, alookup]
  | cons kv rest ih =>
    by_cases h : kv.1 = k
    · simp [ainsert, alookup, h]
    · simpa [ainsert, alookup, h] using ih

theorem alookup_ainsert_ne {α : Type} (k k' : String) (v : α) (l : List (String × α))
    (h : k' ≠ k) : alookup k (ainsert k' v l) = alookup k l := by
  induction l with
  | nil => simp [ainsert, alookup, h]
  | cons kv rest ih =>
    by_cases h' : kv.1 = k'
    · simp [ainsert, alookup, h', h]
    · by_cases h'' : kv.1 = k
      · simp [ainsert, alookup, h', h'', Ne.symm h]
      · simpa [ainsert, alookup, h', h''] using ih

theorem alookup_aupdate_self {α : Type} (k : String) (f : α → α) (l : List (String × α)) :
    alookup k (aupdate k f l) = (alookup k l).map f := by
  induction l with
  | nil => simp [aupdate, alookup]
  | cons kv rest ih =>
    by_cases h : kv.1 = k
    · simp [aupdate, alookup, h]
    · simpa [aupdate, alookup, h] using ih

theorem alookup_filter_key {α : Type} (q : String → Bool) (l : List (String × α)) (k : String) :
    alookup k (l.filter (fun kv => q kv.1)) = if q k then alookup k l else none := by
  induction l with
  | nil => simp [alookup]
  | cons kv rest ih =>
    by_cases hk : kv.1 = k
    · subst hk
      by_cases hq : q kv.1
      · simp [List.filter_cons, hq, alookup]
      · simpa [List.filter_cons, hq, alookup] using ih
    · by_cases hq : q kv.1
      · simpa [List.filter_cons, hq, alookup, hk] using ih
      · simpa [List.filter_cons, hq, alookup, hk] using ih

/-! ## C1 — pruning -/

/-- C1: refuted as stated; the failing input for the code-bug record.  The
claim states that `prunePods` repeatedly removes terminated non-most-recent
pods until at most one pod remains (so that a resource ends with at most
one tracked pod unless several non-terminated pods coexist).  On a resource
tracking two Succeeded pods and one Running pod, a single call of
`prunePods` removes only one terminated pod and returns, leaving two
tracked pods even though only one non-terminated pod exists: the loop in
the source is unconditionally terminated by its final `return`, contrary to
its own `Continue pruning until we have 1 pod` comment. -/
theorem prunePods_single_removal_bug :
    nonTerminatedCount pruneExampleMS.runtime.pods = 1 ∧
    (prunePods pruneExampleMS).runtime.pods.length = 2 ∧
    (prunePods pruneExampleMS).runtime.pods =
      [("fe-b", podSucceededB), ("fe-c", podRunningC)] := by
  refine ⟨by decide, by decide, by decide⟩

/-! ## C9 — log-stream staleness -/

/-- C9: at a health-check tick, a stream whose last successful read is
non-zero and at least the 15-second health-check interval old is cancelled
and marked for retry with its start-read time set to the last read plus the
2-second reconnect gap — strictly after the last successful read. -/
theorem healthCheckTick_stale_restart (s : LogStreamState) (now : Nat)
    (hread : s.lastRead ≠ 0) (hstale : podLogHealthCheck ≤ now - s.lastRead) :
    healthCheckTick s now =
      { s with
          retry := true
          cancelled := true
          startReadTime := s.lastRead + podLogReconnectGap } ∧
    s.lastRead < (healthCheckTick s now).startReadTime := by
  have hcond : ¬(s.lastRead = 0 ∨ now - s.lastRead < podLogHealthCheck) := by
    push_neg
    exact ⟨hread, hstale⟩
  constructor
  · rw [healthCheckTick, if_neg hcond]
  · rw [healthCheckTick, if_neg hcond]
    simp [podLogReconnectGap]

/-- C9 witness: a stream last read at time 4, checked at time 20, restarts
from time 6. -/
theorem healthCheckTick_stale_restart_witness :
    ((4 : Nat) ≠ 0 ∧ podLogHealthCheck ≤ 20 - 4) ∧
    healthCheckTick
        { startReadTime := 0, lastRead := 4, retry := false, cancelled := false } 20 =
      { startReadTime := 6, lastRead := 4, retry := true, cancelled := true } := by
  refine ⟨⟨by decide, by decide⟩, ?_⟩
  have h := healthCheckTick_stale_restart
    { startReadTime := 0, lastRead := 4, retry := false, cancelled := false } 20
    (by decide) (by decide)
  exact h.1.trans (by decide)

/-! ## C7 — container-crash detection -/

/-- C7: for a target not already flagged, `checkForContainerCrash` leaves
the state unchanged when every live-updated container ID is still among the
running containers, and otherwise sets `NeedsRebuildFromCrash` and clears
the live-updated set. -/
theorem checkForContainerCrash_spec (mt : ManifestTarget)
    (h : mt.state.needsRebuildFromCrash = false) :
    ((∀ cID ∈ mt.state.liveUpdatedContainerIDs,
        cID ∈ (allRunningContainers mt).map (fun c => c.id)) →
      checkForContainerCrash mt = (mt.state, [])) ∧
    ((∃ cID ∈ mt.state.liveUpdatedContainerIDs,
        cID ∉ (allRunningContainers mt).map (fun c => c.id)) →
      (checkForContainerCrash mt).1.needsRebuildFromCrash = true ∧
        (checkForContainerCrash mt).1.liveUpdatedContainerIDs = []) := by
  have hunfold : checkForContainerCrash mt =
      (if (mt.state.liveUpdatedContainerIDs.filter
            (fun cID => !((allRunningContainers mt).map (fun c => c.id)).contains cID)).isEmpty
        then (mt.state, [])
        else ({ mt.state with needsRebuildFromCrash := true, liveUpdatedContainerIDs := [] },
          [LogEntry.crashRebuild mt.state.name])) := by
    simp only [checkForContainerCrash]
    rw [h]
    rfl
  constructor
  · intro hall
    have hfilter : mt.state.liveUpdatedContainerIDs.filter
        (fun cID => !((allRunningContainers mt).map (fun c => c.id)).contains cID) = [] := by
      rw [List.filter_eq_nil_iff]
      intro cID hmem
      simpa using hall cID hmem
    rw [hunfold, hfilter]
    rfl
  · rintro ⟨cID, hmem, hnotin⟩
    have hfilter : mt.state.liveUpdatedContainerIDs.filter
        (fun cID => !((allRunningContainers mt).map (fun c => c.id)).contains cID) ≠ [] := by
      intro hnil
      rw [List.filter_eq_nil_iff] at hnil
      exact (hnil cID hmem) (by simpa using hnotin)
    have hne : (mt.state.liveUpdatedContainerIDs.filter
        (fun cID => !((allRunningContainers mt).map (fun c => c.id)).contains cID)).isEmpty
        = false := by
      cases hfe : (mt.state.liveUpdatedContainerIDs.filter
          (fun cID => !((allRunningContainers mt).map (fun c => c.id)).contains cID)) with
      | nil => exact absurd hfe hfilter
      | cons a l => simp [hfe]
    rw [hunfold, hne]
    exact ⟨rfl, rfl⟩

/-- C7 witness: containers `a` and `b` were live-updated, only `a` still
runs, so the crash check flags the target and clears the set. -/
theorem checkForContainerCrash_spec_witness :
    crashExampleMT.state.needsRebuildFromCrash = false ∧
    (checkForContainerCrash crashExampleMT).1.needsRebuildFromCrash = true ∧
    (checkForContainerCrash crashExampleMT).1.liveUpdatedContainerIDs = [] := by
  refine ⟨by decide, ?_⟩
  exact (checkForContainerCrash_spec crashExampleMT (by decide)).2
    ⟨"b", by decide, by decide⟩

/-! ## C6 — stale or unmatched actions are silent no-ops -/

/-- C6: a pod-change action naming an unknown manifest, or carrying a
non-empty matched ancestor UID that is no longer in the deployed-UID set of
its resource, leaves the engine state unchanged and emits no log entry. -/
theorem handlePodChangeAction_stale_noop (now : Nat) (state : EngineState)
    (action : PodChangeAction)
    (h : alookup action.manifestName state.manifestTargets = none ∨
      ∃ mt, alookup action.manifestName state.manifestTargets = some mt ∧
        action.matchedAncestorUID ≠ "" ∧
        mt.state.runtime.deployedUIDSet.contains action.matchedAncestorUID = false) :
    handlePodChangeAction now state action = (state, []) := by
  have hm : matchPodChangeToManifest state action = none := by
    rcases h with h | ⟨mt, hmt, hne, hcont⟩
    · simp [matchPodChangeToManifest, h]
    · simp only [matchPodChangeToManifest, hmt]
      rw [if_pos]
      exact ⟨hne, by simpa using hcont⟩
  simp [handlePodChangeAction, hm]

/-- C6 witness: an action with stale ancestor UID `u2` against a resource
whose deployed set is only `u1` changes nothing. -/
theorem handlePodChangeAction_stale_noop_witness :
    (alookup staleExampleAction.manifestName staleExampleState.manifestTargets =
        some staleExampleMT ∧
      staleExampleAction.matchedAncestorUID ≠ "" ∧
      staleExampleMT.state.runtime.deployedUIDSet.contains
        staleExampleAction.matchedAncestorUID = false) ∧
    handlePodChangeAction 0 staleExampleState staleExampleAction =
      (staleExampleState, []) := by
  refine ⟨⟨by decide, by decide, by decide⟩, ?_⟩
  exact handlePodChangeAction_stale_noop 0 staleExampleState staleExampleAction
    (Or.inr ⟨staleExampleMT, by decide, by decide, by decide⟩)

/-! ## C5 — ancestor adoption replaces the tracked-pod set -/

/-- C5: for a current-deploy pod, when the resource tracks no ancestor UID
yet, or the action carries a non-empty matched ancestor UID different from
the tracked one, `maybeTrackPod` drops every previously tracked pod (the
map is replaced by an empty one before the incoming pod is inserted),
adopts the new ancestor UID, and tracks the incoming pod as new. -/
theorem maybeTrackPod_adopt_new_ancestor (ms : ManifestState) (action : PodChangeAction)
    (hdeploy : action.pod.templateHashOK = true)
    (hcond : ms.runtime.podAncestorUID = "" ∨
      (action.matchedAncestorUID ≠ "" ∧
        ms.runtime.podAncestorUID ≠ action.matchedAncestorUID)) :
    maybeTrackPod ms action =
      (some { emptyPod with podID := action.pod.podName }, true,
        { ms with runtime :=
            { ms.runtime with
                pods := [(action.pod.podName, { emptyPod with podID := action.pod.podName })]
                podAncestorUID := action.matchedAncestorUID } }) := by
  simp only [maybeTrackPod, hdeploy]
  rw [if_neg (by simp)]
  rw [if_pos hcond]
  rfl

/-- C5 witness: a resource tracking pod `old-pod` under ancestor `u1`
receives a current-deploy pod matched to ancestor `u2`: the old pod is
dropped, `u2` is adopted and the new pod is tracked as new. -/
theorem maybeTrackPod_adopt_new_ancestor_witness :
    (adoptExampleAction.pod.templateHashOK = true ∧
      adoptExampleMS.runtime.podAncestorUID ≠ adoptExampleAction.matchedAncestorUID) ∧
    maybeTrackPod adoptExampleMS adoptExampleAction =
      (some { emptyPod with podID := "p1" }, true,
        { adoptExampleMS with runtime :=
            { adoptExampleMS.runtime with
                pods := [("p1", { emptyPod with podID := "p1" })]
                podAncestorUID := "u2" } }) := by
  refine ⟨⟨by decide, by decide⟩, ?_⟩
  have h := maybeTrackPod_adopt_new_ancestor adoptExampleMS adoptExampleAction
    (by decide) (Or.inr ⟨by decide, by decide⟩)
  exact h.trans (by decide)

/-! ## C10 — port-forward population -/

theorem populatePortForwardStep_eq (cPorts : List Nat) (acc : List PortForward)
    (forward : PortForward) :
    populatePortForwardStep cPorts acc forward =
      acc ++ (resolvePortForwardSpec cPorts forward).toList := by
  by_cases h0 : forward.containerPort = 0
  · by_cases hempty : cPorts.isEmpty
    · simp [populatePortForwardStep, resolvePortForwardSpec, h0, hempty]
    · cases hfind : cPorts.find? (fun cPort => forward.localPort = cPort) with
      | none =>
        have hnotmem : forward.localPort ∉ cPorts := by
          intro hmem
          have := List.find?_eq_none.mp hfind forward.localPort hmem
          simp at this
        simp [populatePortForwardStep, resolvePortForwardSpec, h0, hempty, hfind, hnotmem]
      | some cPort =>
        have heq : forward.localPort = cPort := by
          have h := List.find?_some hfind
          simpa using h
        have hmem : forward.localPort ∈ cPorts := by
          rw [heq]
          exact List.mem_of_find?_eq_some hfind
        have hstep : populatePortForwardStep cPorts acc forward =
            acc ++ [{ forward with containerPort := cPort }] := by
          simp only [populatePortForwardStep, if_pos h0, if_neg hempty]
          rw [hfind]
        have hspec : resolvePortForwardSpec cPorts forward =
            some { forward with containerPort := forward.localPort } := by
          simp [resolvePortForwardSpec, h0, hempty, hmem]
        rw [hstep, hspec, heq]
        simp
  · simp [populatePortForwardStep, resolvePortForwardSpec, h0]

theorem populatePortForwards_foldl (cPorts : List Nat) (fwds : List PortForward) :
    ∀ acc : List PortForward,
      fwds.foldl (populatePortForwardStep cPorts) acc =
        acc ++ fwds.filterMap (resolvePortForwardSpec cPorts) := by
  induction fwds with
  | nil => intro acc; simp
  | cons f rest ih =>
    intro acc
    rw [List.foldl_cons, ih, populatePortForwardStep_eq]
    cases hres : resolvePortForwardSpec cPorts f with
    | none => simp [List.filterMap_cons, hres]
    | some f' => simp [List.filterMap_cons, hres]

/-- C10: `populatePortForwards` returns exactly the spec forwards of the
manifest, in spec order, with zero container ports resolved against the
exposed container ports of the pod as the claim describes: dropped when no
port is exposed, set to the exposed port equal to the local port when one
exists, and to the first exposed port otherwise; nonzero forwards are kept
unchanged. -/
theorem populatePortForwards_eq_spec (m : Manifest) (pod : Pod) :
    populatePortForwards m pod = populatePortForwardsSpec m pod := by
  rw [populatePortForwards, populatePortForwardsSpec, populatePortForwards_foldl]
  rfl

/-! ## C3 — pod triage -/

theorem findSome?_eq_firstAncestorMatch (deployed : List (String × String)) :
    ∀ tree : List String,
      tree.findSome?
        (fun ownerUID => (alookup ownerUID deployed).map (fun mn => (mn, ownerUID))) =
      firstAncestorMatch deployed tree
  | [] => rfl
  | u :: rest => by
    rw [List.findSome?_cons]
    cases h : alookup u deployed with
    | some mn => simp [h, firstAncestorMatch]
    | none => simp [h, firstAncestorMatch, findSome?_eq_firstAncestorMatch deployed rest]

theorem triagePodTree_fst (w : PodWatcherState) (pod : InputPod) (tree : List String) :
    (triagePodTree w pod tree).1 =
      { w with knownDescendentPodUIDs := podDescFold pod.uid w.knownDescendentPodUIDs tree } := by
  simp only [triagePodTree, podDescFold]
  split
  · rfl
  · split <;> rfl

/-- C3: triaging an observed pod returns the manifest mapped to the first
owner-chain UID present in the deployed-UID index together with that UID;
when no ancestor matches, the first extra selector matching the pod labels
determines the manifest with an empty ancestor UID; when nothing matches
the empty result is returned — and in every case the pod is stored in the
known-pods index under its UID, available for future replay. -/
theorem processPodUpdate_spec (w : PodWatcherState) (pod : InputPod)
    (objTreeUIDs : List String) :
    ((processPodUpdate w pod objTreeUIDs).2 =
      triageResultSpec w.knownDeployedUIDs w.extraSelectors objTreeUIDs pod.labels) ∧
    alookup pod.uid (processPodUpdate w pod objTreeUIDs).1.knownPods = some pod := by
  constructor
  · show (triagePodTree (upsertPod w pod) pod objTreeUIDs).2 = _
    simp only [triagePodTree, triageResultSpec, upsertPod]
    rw [findSome?_eq_firstAncestorMatch]
    cases h : firstAncestorMatch w.knownDeployedUIDs objTreeUIDs with
    | some r => simp [h]
    | none =>
      cases hsel : w.extraSelectors.find? (fun sel => selectorMatches sel pod.labels) with
      | some sel => simp [h, hsel]
      | none => simp [h, hsel]
  · show alookup pod.uid (triagePodTree (upsertPod w pod) pod objTreeUIDs).1.knownPods = _
    rw [triagePodTree_fst]
    exact alookup_ainsert_self pod.uid pod w.knownPods

/-! ## C4 — descendant-index recording -/

theorem alookup_descIndexAdd_self (idx : List (String × List String)) (k u : String) :
    alookup k (descIndexAdd idx k u) =
      some (match alookup k idx with
            | none => [u]
            | some s => if s.contains u then s else s ++ [u]) := by
  unfold descIndexAdd
  cases h : alookup k idx with
  | none => simp [alookup_ainsert_self]
  | some s => simp [alookup_ainsert_self]

theorem alookup_descIndexAdd_ne (idx : List (String × List String)) (k u k' : String)
    (h : k' ≠ k) : alookup k' (descIndexAdd idx k u) = alookup k' idx := by
  unfold descIndexAdd
  cases h2 : alookup k idx with
  | none => exact alookup_ainsert_ne k' k [u] idx (Ne.symm h)
  | some s => exact alookup_ainsert_ne k' k _ idx (Ne.symm h)

theorem descIndexHas_descIndexAdd (idx : List (String × List String)) (k u k' u' : String) :
    descIndexHas (descIndexAdd idx k u) k' u' = true ↔
      descIndexHas idx k' u' = true ∨ (k' = k ∧ u' = u) := by
  by_cases hk : k' = k
  · subst hk
    unfold descIndexHas
    rw [alookup_descIndexAdd_self]
    cases h : alookup k' idx with
    | none => simp
    | some s =>
      show (if s.contains u then s else s ++ [u]).contains u' = true ↔
        (s.contains u' = true ∨ (k' = k' ∧ u' = u))
      by_cases hc : s.contains u
      · rw [if_pos hc]
        constructor
        · exact fun hs => Or.inl hs
        · rintro (hs | ⟨-, hu⟩)
          · exact hs
          · subst hu
            exact hc
      · rw [if_neg hc]
        simp
  · unfold descIndexHas
    rw [alookup_descIndexAdd_ne idx k u k' hk]
    constructor
    · exact Or.inl
    · rintro (hs | ⟨hke, -⟩)
      · exact hs
      · exact absurd hke hk

theorem descIndexHas_podFold (uid : String) :
    ∀ (chain : List String) (idx : List (String × List String)) (k u : String),
      descIndexHas (podDescFold uid idx chain) k u = true ↔
        descIndexHas idx k u = true ∨ (u = uid ∧ k ∈ chain ∧ k ≠ uid) := by
  intro chain
  induction chain with
  | nil => intro idx k u; simp [podDescFold]
  | cons o rest ih =>
    intro idx k u
    have hstep : podDescFold uid idx (o :: rest) =
        podDescFold uid (if uid = o then idx else descIndexAdd idx o uid) rest := by
      simp [podDescFold]
    rw [hstep]
    by_cases ho : uid = o
    · rw [if_pos ho, ih]
      constructor
      · rintro (h | ⟨hu, hk, hne⟩)
        · exact Or.inl h
        · exact Or.inr ⟨hu, List.mem_cons_of_mem _ hk, hne⟩
      · rintro (h | ⟨hu, hk, hne⟩)
        · exact Or.inl h
        · rcases List.mem_cons.mp hk with hk | hk
          · exact absurd (by rw [hk, ← ho]) hne
          · exact Or.inr ⟨hu, hk, hne⟩
    · rw [if_neg ho, ih, descIndexHas_descIndexAdd]
      constructor
      · rintro ((h | ⟨hke, hu⟩) | ⟨hu, hk, hne⟩)
        · exact Or.inl h
        · refine Or.inr ⟨hu, ?_, ?_⟩
          · rw [hke]
            exact List.mem_cons_self o rest
          · rw [hke]
            exact fun he => ho he.symm
        · exact Or.inr ⟨hu, List.mem_cons_of_mem _ hk, hne⟩
      · rintro (h | ⟨hu, hk, hne⟩)
        · exact Or.inl (Or.inl h)
        · rcases List.mem_cons.mp hk with hk | hk
          · exact Or.inl (Or.inr ⟨hk, hu⟩)
          · exact Or.inr ⟨hu, hk, hne⟩

theorem descIndexHas_eventFold (uid : String) :
    ∀ (chain : List String) (idx : List (String × List String)) (k u : String),
      descIndexHas (eventDescFold uid idx chain) k u = true ↔
        descIndexHas idx k u = true ∨ (u = uid ∧ k ∈ chain) := by
  intro chain
  induction chain with
  | nil => intro idx k u; simp [eventDescFold]
  | cons o rest ih =>
    intro idx k u
    have hstep : eventDescFold uid idx (o :: rest) =
        eventDescFold uid (descIndexAdd idx o uid) rest := by
      simp [eventDescFold]
    rw [hstep, ih, descIndexHas_descIndexAdd]
    constructor
    · rintro ((h | ⟨hke, hu⟩) | ⟨hu, hk⟩)
      · exact Or.inl h
      · refine Or.inr ⟨hu, ?_⟩
        rw [hke]
        exact List.mem_cons_self o rest
      · exact Or.inr ⟨hu, List.mem_cons_of_mem _ hk⟩
    · rintro (h | ⟨hu, hk⟩)
      · exact Or.inl (Or.inl h)
      · rcases List.mem_cons.mp hk with hk | hk
        · exact Or.inl (Or.inr ⟨hk, hu⟩)
        · exact Or.inr ⟨hu, hk⟩

theorem triageEventUpdate_fst (m : EventWatchState) (event : Event) (tree : List String) :
    (triageEventUpdate m event tree).1 =
      { m with
          knownEvents := ainsert event.uid event m.knownEvents
          knownDescendentEventUIDs :=
            eventDescFold event.uid m.knownDescendentEventUIDs tree } := by
  simp only [triageEventUpdate, eventDescFold]
  split <;> rfl

/-- C4 counterexample: the claim states that in both the pod triage and the
event triage the entry whose ancestor UID equals the UID of the triaged
object is excluded.  `triageEventUpdate` has no such exclusion: triaging an
event with UID `u` whose involved-object owner chain contains `u` records
`u` in the descendant index under `u` itself. -/
theorem triageEventUpdate_self_entry :
    descIndexHas
      (triageEventUpdate
        { knownDeployedUIDs := [], knownDescendentEventUIDs := [], knownEvents := [] }
        { uid := "u" } ["u"]).1.knownDescendentEventUIDs "u" "u" = true := by
  decide

/-! ## C2 — restart detection -/

theorem restartedContainerNames_eq_spec :
    ∀ existing newCs : List Container,
      restartedContainerNames existing newCs = restartedContainerNamesSpec existing newCs := by
  intro existing newCs
  induction existing generalizing newCs with
  | nil => cases newCs <;> simp [restartedContainerNames, restartedContainerNamesSpec]
  | cons e es ih =>
    cases newCs with
    | nil => simp [restartedContainerNames, restartedContainerNamesSpec]
    | cons c cs =>
      simp only [restartedContainerNames, restartedContainerNamesSpec, List.zip_cons_cons,
        List.filter_cons]
      by_cases h : e.name = c.name ∧ c.restarts > e.restarts
      · have hb : (c.name == e.name && decide (e.restarts < c.restarts)) = true := by
          rcases h with ⟨h1, h2⟩
          simp [h1, h2]
        rw [if_pos h, hb]
        simp only [List.map_cons, List.cons.injEq, true_and]
        rw [ih cs]
        rfl
      · have hb : (c.name == e.name && decide (e.restarts < c.restarts)) = false := by
          by_cases h1 : e.name = c.name
          · have h2 : ¬ e.restarts < c.restarts := fun hgt => h ⟨h1, hgt⟩
            simp [h1, h2]
          · have h2 : (c.name == e.name) = false := by
              simp only [beq_eq_false_iff_ne, ne_eq]
              exact fun he => h1 he.symm
            simp [h2]
        rw [if_neg h, hb]
        rw [ih cs]
        rfl

theorem filter_isContainerRestart_map (pid : String) (names : List String) :
    (names.map (fun name => LogEntry.containerRestart pid name)).filter
        LogEntry.isContainerRestart =
      names.map (fun name => LogEntry.containerRestart pid name) := by
  induction names with
  | nil => rfl
  | cons n rest ih => simp [List.filter_cons, LogEntry.isContainerRestart, ih]

theorem checkForContainerCrash_logs_no_restart (mt : ManifestTarget) :
    (checkForContainerCrash mt).2.filter LogEntry.isContainerRestart = [] := by
  simp only [checkForContainerCrash]
  split
  · rfl
  · split
    · rfl
    · simp [LogEntry.isContainerRestart]

theorem checkForContainerCrash_runtime (mt : ManifestTarget) :
    (checkForContainerCrash mt).1.runtime = mt.state.runtime := by
  simp only [checkForContainerCrash]
  split
  · rfl
  · split <;> rfl

theorem maybeTrackPod_isNew_pod (ms : ManifestState) (action : PodChangeAction)
    (op : Option Pod) (ms₁ : ManifestState)
    (h : maybeTrackPod ms action = (op, true, ms₁)) :
    op = some { emptyPod with podID := action.pod.podName } := by
  simp only [maybeTrackPod] at h
  split at h
  · exact absurd (congrArg (fun t => t.2.1) h) Bool.false_ne_true
  · split at h
    · exact (congrArg (fun t => t.1) h).symm
    · exact absurd (congrArg (fun t => t.2.1) h) Bool.false_ne_true

theorem applyTrackedPodUpdate_new_logs (now : Nat) (mt : ManifestTarget)
    (action : PodChangeAction) (p0 : Pod) (ms : ManifestState) :
    (applyTrackedPodUpdate now mt action p0 true ms).2.filter
      LogEntry.isContainerRestart = [] := by
  simp only [applyTrackedPodUpdate, Bool.not_true, Bool.false_eq_true, reduceIte,
    List.nil_append]
  split
  · rfl
  · simp only [List.filter_append, checkForContainerCrash_logs_no_restart,
      List.append_nil, List.nil_append]
    split <;> simp [LogEntry.isContainerRestart]

theorem applyTrackedPodUpdate_new_baseline (now : Nat) (mt : ManifestTarget)
    (action : PodChangeAction) (p0 : Pod) (ms : ManifestState) :
    ∀ p', alookup p0.podID
        (applyTrackedPodUpdate now mt action p0 true ms).1.runtime.pods = some p' →
      p'.baselineRestarts = allContainerRestarts p' := by
  intro p' hp
  simp only [applyTrackedPodUpdate, Bool.not_true, Bool.false_eq_true, reduceIte,
    List.nil_append] at hp
  split at hp
  · simp only [msUpdatePod, alookup_aupdate_self, Option.map_eq_some'] at hp
    obtain ⟨a, -, hpe⟩ := hp
    rw [← hpe]
    rfl
  · rw [checkForContainerCrash_runtime] at hp
    split at hp
    · simp only [msUpdatePod, alookup_aupdate_self, Option.map_eq_some'] at hp
      obtain ⟨a, -, hpe⟩ := hp
      rw [← hpe]
      rfl
    · simp only [msUpdatePod, alookup_aupdate_self, Option.map_eq_some'] at hp
      obtain ⟨a, -, hpe⟩ := hp
      rw [← hpe]
      rfl

theorem applyTrackedPodUpdate_tracked_logs (now : Nat) (mt : ManifestTarget)
    (action : PodChangeAction) (p0 : Pod) (ms : ManifestState) :
    (applyTrackedPodUpdate now mt action p0 false ms).2.filter
        LogEntry.isContainerRestart =
      (restartedContainerNames p0.initContainers action.pod.initContainers).map
        (fun name => LogEntry.containerRestart p0.podID name) ++
      (restartedContainerNames p0.containers action.pod.containers).map
        (fun name => LogEntry.containerRestart p0.podID name) := by
  simp only [applyTrackedPodUpdate, Bool.not_false, Bool.false_eq_true, reduceIte]
  split
  · simp only [List.filter_append, filter_isContainerRestart_map]
  · simp only [List.filter_append, filter_isContainerRestart_map,
      checkForContainerCrash_logs_no_restart, List.append_nil]
    split <;> simp [LogEntry.isContainerRestart]

/-- C2: for a pod update applied by `handlePodChangeAction`, a first-seen
pod emits no restart notification and its `baselineRestarts` is frozen to
its current total restart count; an already-tracked pod emits restart
notifications exactly for the positions where the container list kept the
container name and strictly increased its restart count (computed by
`restartedContainerNames`, which pairs the lists position-wise, truncates
at the old length, and skips positions whose name changed). -/
theorem handlePodChangeAction_restart_detection (now : Nat) (state : EngineState)
    (action : PodChangeAction) (mt : ManifestTarget)
    (hmatch : matchPodChangeToManifest state action = some mt) :
    (∀ p ms₁, maybeTrackPod mt.state action = (some p, true, ms₁) →
      ((handlePodChangeAction now state action).2.filter LogEntry.isContainerRestart = [] ∧
        ∀ mt' p',
          alookup action.manifestName
            (handlePodChangeAction now state action).1.manifestTargets = some mt' →
          alookup action.pod.podName mt'.state.runtime.pods = some p' →
          p'.baselineRestarts = allContainerRestarts p')) ∧
    (∀ p ms₁, maybeTrackPod mt.state action = (some p, false, ms₁) →
      (handlePodChangeAction now state action).2.filter LogEntry.isContainerRestart =
        (restartedContainerNames p.initContainers action.pod.initContainers).map
          (fun name => LogEntry.containerRestart p.podID name) ++
        (restartedContainerNames p.containers action.pod.containers).map
          (fun name => LogEntry.containerRestart p.podID name)) ∧
    (∀ existing newCs, restartedContainerNames existing newCs =
      restartedContainerNamesSpec existing newCs) := by
  have hhandle : ∀ p b ms₁, maybeTrackPod mt.state action = (some p, b, ms₁) →
      handlePodChangeAction now state action =
        ({ manifestTargets := ainsert action.manifestName
            { mt with state := (applyTrackedPodUpdate now mt action p b ms₁).1 }
            state.manifestTargets },
          (applyTrackedPodUpdate now mt action p b ms₁).2) := by
    intro p b ms₁ htrack
    simp only [handlePodChangeAction, hmatch, htrack]
  refine ⟨?_, ?_, restartedContainerNames_eq_spec⟩
  · intro p ms₁ htrack
    obtain rfl : p = { emptyPod with podID := action.pod.podName } :=
      Option.some.inj (maybeTrackPod_isNew_pod mt.state action (some p) ms₁ htrack)
    rw [hhandle _ _ _ htrack]
    constructor
    · exact applyTrackedPodUpdate_new_logs now mt action _ ms₁
    · intro mt' p' hmt' hp'
      rw [alookup_ainsert_self] at hmt'
      obtain rfl := Option.some.inj hmt'
      exact applyTrackedPodUpdate_new_baseline now mt action
        { emptyPod with podID := action.pod.podName } ms₁ p' hp'
  · intro p ms₁ htrack
    rw [hhandle _ _ _ htrack]
    exact applyTrackedPodUpdate_tracked_logs now mt action p ms₁

/-- C2 witness: tracked pod `p1` is observed again with its container
restart count increased from 1 to 3 — exactly one restart notification is
emitted, for container `main`. -/
theorem handlePodChangeAction_restart_detection_witness :
    (matchPodChangeToManifest restartExampleState restartExampleAction =
        some restartExampleMT ∧
      maybeTrackPod restartExampleMT.state restartExampleAction =
        (some restartExampleTrackedPod, false, restartExampleMT.state)) ∧
    (handlePodChangeAction 0 restartExampleState restartExampleAction).2.filter
        LogEntry.isContainerRestart =
      [LogEntry.containerRestart "p1" "main"] := by
  refine ⟨⟨by decide, by decide⟩, ?_⟩
  have h := (handlePodChangeAction_restart_detection 0 restartExampleState
      restartExampleAction restartExampleMT (by decide)).2.1
    restartExampleTrackedPod restartExampleMT.state (by decide)
  rw [h]
  decide

/-- C4 amended: the pod triage records the pod UID in the descendant index
under exactly the owner-chain UIDs different from the pod UID (self-entries
excluded); the event triage records the event UID under every UID of the
involved-object owner chain, with no self-exclusion. -/
theorem descendantIndex_characterization :
    (∀ (w : PodWatcherState) (pod : InputPod) (tree : List String) (k u : String),
      descIndexHas (triagePodTree w pod tree).1.knownDescendentPodUIDs k u = true ↔
        descIndexHas w.knownDescendentPodUIDs k u = true ∨
          (u = pod.uid ∧ k ∈ tree ∧ k ≠ pod.uid)) ∧
    (∀ (m : EventWatchState) (event : Event) (tree : List String) (k u : String),
      descIndexHas (triageEventUpdate m event tree).1.knownDescendentEventUIDs k u = true ↔
        descIndexHas m.knownDescendentEventUIDs k u = true ∨ (u = event.uid ∧ k ∈ tree)) := by
  constructor
  · intro w pod tree k u
    rw [triagePodTree_fst]
    exact descIndexHas_podFold pod.uid tree w.knownDescendentPodUIDs k u
  · intro m event tree k u
    rw [triageEventUpdate_fst]
    exact descIndexHas_eventFold event.uid tree m.knownDescendentEventUIDs k u

/-! ## C8 — port-forward diff idempotence -/

theorem pfEligibleIDs_cons (t : ManifestTarget) (rest : List ManifestTarget) :
    pfEligibleIDs (t :: rest) =
      if pfEligible t then (pfTargetPod t).podID :: pfEligibleIDs rest
      else pfEligibleIDs rest := by
  cases he : pfEligible t <;> simp [pfEligibleIDs, List.filterMap_cons, he]

theorem pfEligible_spec (mt : ManifestTarget) (h : pfEligible mt = true) :
    ¬((mostRecentPod mt.state.runtime.pods).podID = "") ∧
    ¬((mostRecentPod mt.state.runtime.pods).phase ≠ PodPhase.running ∧
        !(mostRecentPod mt.state.runtime.pods).deleting) ∧
    (populatePortForwards mt.manifest (mostRecentPod mt.state.runtime.pods)).isEmpty
      = false := by
  simp only [pfEligible, pfTargetPod, Bool.and_eq_true] at h
  obtain ⟨⟨ha, hb⟩, hc⟩ := h
  rw [Bool.not_eq_true'] at ha hb hc
  exact ⟨of_decide_eq_false ha, of_decide_eq_false hb, hc⟩

theorem pfDiffStep_skip (acc : PFDiffAcc) (mt : ManifestTarget)
    (h : pfEligible mt = false) : pfDiffStep acc mt = acc := by
  simp only [pfDiffStep]
  by_cases h1 : (mostRecentPod mt.state.runtime.pods).podID = ""
  · rw [if_pos h1]
  · rw [if_neg h1]
    by_cases h2 : (mostRecentPod mt.state.runtime.pods).phase ≠ PodPhase.running ∧
        !(mostRecentPod mt.state.runtime.pods).deleting
    · rw [if_pos h2]
    · rw [if_neg h2]
      cases h3 : (populatePortForwards mt.manifest
          (mostRecentPod mt.state.runtime.pods)).isEmpty with
      | true => rfl
      | false =>
        exfalso
        rw [pfEligible] at h
        simp only [pfTargetPod, h3] at h
        rw [decide_eq_false h1, decide_eq_false h2] at h
        simp at h

theorem pfDiffStep_eligible (acc : PFDiffAcc) (mt : ManifestTarget)
    (h : pfEligible mt = true) :
    pfDiffStep acc mt =
      match alookup (pfTargetPod mt).podID acc.activeForwards with
      | some oldEntry =>
        if oldEntry.forwards = (pfEntryOf mt).forwards then
          { acc with statePods := (pfTargetPod mt).podID :: acc.statePods }
        else
          { statePods := (pfTargetPod mt).podID :: acc.statePods
            activeForwards := ainsert (pfTargetPod mt).podID (pfEntryOf mt) acc.activeForwards
            toStart := acc.toStart ++ [pfEntryOf mt]
            toShutdown := acc.toShutdown ++ [oldEntry] }
      | none =>
        { statePods := (pfTargetPod mt).podID :: acc.statePods
          activeForwards := ainsert (pfTargetPod mt).podID (pfEntryOf mt) acc.activeForwards
          toStart := acc.toStart ++ [pfEntryOf mt]
          toShutdown := acc.toShutdown } := by
  obtain ⟨h1, h2, h3⟩ := pfEligible_spec mt h
  simp only [pfDiffStep]
  rw [if_neg h1, if_neg h2, if_neg (by simp [h3])]
  simp only [pfEntryOf, pfTargetPod]

theorem pfDiffStep_statePods (acc : PFDiffAcc) (mt : ManifestTarget)
    (h : pfEligible mt = true) :
    (pfDiffStep acc mt).statePods = (pfTargetPod mt).podID :: acc.statePods := by
  rw [pfDiffStep_eligible acc mt h]
  split
  · split <;> rfl
  · rfl

theorem pfDiffStep_lookup_ne (acc : PFDiffAcc) (mt : ManifestTarget) (k : String)
    (hne : k ≠ (pfTargetPod mt).podID) :
    alookup k (pfDiffStep acc mt).activeForwards = alookup k acc.activeForwards := by
  cases he : pfEligible mt with
  | false => rw [pfDiffStep_skip acc mt he]
  | true =>
    rw [pfDiffStep_eligible acc mt he]
    split
    · split
      · rfl
      · exact alookup_ainsert_ne k (pfTargetPod mt).podID _ _ (Ne.symm hne)
    · exact alookup_ainsert_ne k (pfTargetPod mt).podID _ _ (Ne.symm hne)

theorem pfFold_statePods :
    ∀ (ts : List ManifestTarget) (acc : PFDiffAcc),
      (ts.foldl pfDiffStep acc).statePods = (pfEligibleIDs ts).reverse ++ acc.statePods := by
  intro ts
  induction ts with
  | nil => intro acc; simp [pfEligibleIDs]
  | cons t rest ih =>
    intro acc
    rw [List.foldl_cons, ih]
    cases he : pfEligible t with
    | false =>
      rw [pfDiffStep_skip acc t he, pfEligibleIDs_cons, if_neg (by simp [he])]
    | true =>
      rw [pfDiffStep_statePods acc t he, pfEligibleIDs_cons, if_pos he]
      simp

theorem pfFold_lookup_not_mem :
    ∀ (ts : List ManifestTarget) (acc : PFDiffAcc) (k : String),
      k ∉ pfEligibleIDs ts →
      alookup k (ts.foldl pfDiffStep acc).activeForwards = alookup k acc.activeForwards := by
  intro ts
  induction ts with
  | nil => intro acc k _; rfl
  | cons t rest ih =>
    intro acc k hk
    rw [List.foldl_cons]
    cases he : pfEligible t with
    | false =>
      rw [ih (pfDiffStep acc t) k ?_, pfDiffStep_skip acc t he]
      intro hmem
      exact hk (by rw [pfEligibleIDs_cons, if_neg (by simp [he])]; exact hmem)
    | true =>
      have hrest : k ∉ pfEligibleIDs rest := by
        intro hmem
        exact hk (by
          rw [pfEligibleIDs_cons, if_pos he]
          exact List.mem_cons_of_mem _ hmem)
      have hne : k ≠ (pfTargetPod t).podID := by
        intro heq
        exact hk (by
          rw [pfEligibleIDs_cons, if_pos he, heq]
          exact List.mem_cons_self _ _)
      rw [ih (pfDiffStep acc t) k hrest, pfDiffStep_lookup_ne acc t k hne]

theorem pfFold_lookup_eligible :
    ∀ (ts : List ManifestTarget) (acc : PFDiffAcc),
      (pfEligibleIDs ts).Nodup →
      ∀ mt ∈ ts, pfEligible mt = true →
      ∃ e', alookup (pfTargetPod mt).podID (ts.foldl pfDiffStep acc).activeForwards = some e' ∧
        e'.forwards = (pfEntryOf mt).forwards := by
  intro ts
  induction ts with
  | nil => intro acc _ mt hmem; exact absurd hmem (List.not_mem_nil mt)
  | cons t rest ih =>
    intro acc hnodup mt hmem helig
    rw [List.foldl_cons]
    rcases List.mem_cons.mp hmem with rfl | hmem'
    · have hpidrest : (pfTargetPod mt).podID ∉ pfEligibleIDs rest := by
        rw [pfEligibleIDs_cons, if_pos helig] at hnodup
        exact (List.nodup_cons.mp hnodup).1
      rw [pfFold_lookup_not_mem rest _ _ hpidrest]
      rw [pfDiffStep_eligible acc mt helig]
      split
      next oldEntry heq =>
        by_cases hfw : oldEntry.forwards = (pfEntryOf mt).forwards
        · rw [if_pos hfw]
          exact ⟨oldEntry, heq, hfw⟩
        · rw [if_neg hfw]
          exact ⟨pfEntryOf mt, by simp [alookup_ainsert_self], rfl⟩
      next heq =>
        exact ⟨pfEntryOf mt, by simp [alookup_ainsert_self], rfl⟩
    · have hnodup' : (pfEligibleIDs rest).Nodup := by
        cases he : pfEligible t with
        | false => rwa [pfEligibleIDs_cons, if_neg (by simp [he])] at hnodup
        | true =>
          rw [pfEligibleIDs_cons, if_pos he] at hnodup
          exact (List.nodup_cons.mp hnodup).2
      exact ih (pfDiffStep acc t) hnodup' mt hmem' helig

theorem pfFold_idem :
    ∀ (ts : List ManifestTarget) (active : List (String × PFEntry)),
      (∀ mt ∈ ts, pfEligible mt = true →
        ∃ e', alookup (pfTargetPod mt).podID active = some e' ∧
          e'.forwards = (pfEntryOf mt).forwards) →
      ∀ sp : List String,
        ts.foldl pfDiffStep
          { statePods := sp, activeForwards := active, toStart := [], toShutdown := [] } =
        { statePods := (pfEligibleIDs ts).reverse ++ sp, activeForwards := active,
          toStart := [], toShutdown := [] } := by
  intro ts
  induction ts with
  | nil => intro active _ sp; simp [pfEligibleIDs]
  | cons t rest ih =>
    intro active hact sp
    rw [List.foldl_cons]
    cases he : pfEligible t with
    | false =>
      rw [pfDiffStep_skip _ t he,
        ih active (fun mt hm he' => hact mt (List.mem_cons_of_mem _ hm) he') sp,
        pfEligibleIDs_cons, if_neg (by simp [he])]
    | true =>
      obtain ⟨e', hlook, hfw⟩ := hact t (List.mem_cons_self t rest) he
      have hstep : pfDiffStep
          { statePods := sp, activeForwards := active, toStart := [], toShutdown := [] } t =
          { statePods := (pfTargetPod t).podID :: sp, activeForwards := active,
            toStart := [], toShutdown := [] } := by
        rw [pfDiffStep_eligible _ t he]
        have hlook' : alookup (pfTargetPod t).podID
            (PFDiffAcc.activeForwards
              { statePods := sp, activeForwards := active, toStart := [],
                toShutdown := [] }) = some e' := hlook
        simp only [hlook']
        rw [if_pos hfw]
      rw [hstep,
        ih active (fun mt hm he' => hact mt (List.mem_cons_of_mem _ hm) he')
          ((pfTargetPod t).podID :: sp),
        pfEligibleIDs_cons, if_pos he]
      simp

/-- C8 counterexample: the claim states idempotence for any fixed store
state.  With two manifest targets whose most-recent pods share the pod ID
`p` but resolve different forwards, the active-forward map (keyed by pod ID
only) is overwritten by each target in turn, and the second diff run
produces a non-empty toStart list. -/
theorem pfDiff_second_run_starts :
    (pfDiff pfExampleState (pfDiff pfExampleState []).2.2).1 ≠ [] := by
  decide

/-- C8 amended: port-forward diffing is idempotent provided no two targets
resolve forwards for the same pod ID — for a store state whose eligible
targets have pairwise-distinct most-recent pod IDs, a second diff run
starting from the active map left by the first yields empty toStart and
toShutdown lists and leaves the active map unchanged (value-equal resolved
forwards leave an active entry running untouched). -/
theorem pfDiff_idempotent (state : EngineState) (active0 : List (String × PFEntry))
    (hnodup : (pfEligibleIDs (state.manifestTargets.map (fun kv => kv.2))).Nodup) :
    (pfDiff state (pfDiff state active0).2.2).1 = [] ∧
    (pfDiff state (pfDiff state active0).2.2).2.1 = [] ∧
    (pfDiff state (pfDiff state active0).2.2).2.2 = (pfDiff state active0).2.2 := by
  have hact2 : ∀ mt ∈ state.manifestTargets.map (fun kv => kv.2), pfEligible mt = true →
      ∃ e', alookup (pfTargetPod mt).podID (pfDiff state active0).2.2 = some e' ∧
        e'.forwards = (pfEntryOf mt).forwards := by
    intro mt hm he
    obtain ⟨e', hlook, hfw⟩ := pfFold_lookup_eligible
      (state.manifestTargets.map (fun kv => kv.2))
      { statePods := [], activeForwards := active0, toStart := [], toShutdown := [] }
      hnodup mt hm he
    refine ⟨e', ?_, hfw⟩
    show alookup (pfTargetPod mt).podID
      (((state.manifestTargets.map (fun kv => kv.2)).foldl pfDiffStep
        { statePods := [], activeForwards := active0, toStart := [],
          toShutdown := [] }).activeForwards.filter
        (fun kv => ((state.manifestTargets.map (fun kv => kv.2)).foldl pfDiffStep
          { statePods := [], activeForwards := active0, toStart := [],
            toShutdown := [] }).statePods.contains kv.1)) = some e'
    rw [alookup_filter_key]
    have hmemid : (pfTargetPod mt).podID ∈
        pfEligibleIDs (state.manifestTargets.map (fun kv => kv.2)) := by
      refine List.mem_filterMap.mpr ⟨mt, hm, ?_⟩
      rw [if_pos he]
    rw [pfFold_statePods]
    have hcont : (((pfEligibleIDs (state.manifestTargets.map (fun kv => kv.2))).reverse
        ++ ([] : List String)).contains (pfTargetPod mt).podID) = true := by
      simp [hmemid]
    rw [hcont, if_pos rfl]
    exact hlook
  have hA2 := pfFold_idem (state.manifestTargets.map (fun kv => kv.2))
    (pfDiff state active0).2.2 hact2 []
  refine ⟨?_, ?_, ?_⟩
  · show ((state.manifestTargets.map (fun kv => kv.2)).foldl pfDiffStep
      { statePods := [], activeForwards := (pfDiff state active0).2.2, toStart := [],
        toShutdown := [] }).toStart = []
    rw [hA2]
  · show (((state.manifestTargets.map (fun kv => kv.2)).foldl pfDiffStep
      { statePods := [], activeForwards := (pfDiff state active0).2.2, toStart := [],
        toShutdown := [] }).toShutdown ++
      ((((state.manifestTargets.map (fun kv => kv.2)).foldl pfDiffStep
        { statePods := [], activeForwards := (pfDiff state active0).2.2, toStart := [],
          toShutdown := [] }).activeForwards.filter
        (fun kv => !(((state.manifestTargets.map (fun kv => kv.2)).foldl pfDiffStep
          { statePods := [], activeForwards := (pfDiff state active0).2.2, toStart := [],
            toShutdown := [] }).statePods.contains kv.1))).map (fun kv => kv.2))) = []
    rw [hA2]
    show ([] ++ ((((pfDiff state active0).2.2).filter
      (fun kv => !((pfEligibleIDs (state.manifestTargets.map (fun kv => kv.2))).reverse
        ++ ([] : List String)).contains kv.1)).map (fun kv => kv.2))) = []
    rw [List.nil_append]
    have hsub : ∀ kv ∈ (pfDiff state active0).2.2,
        (((pfEligibleIDs (state.manifestTargets.map (fun kv => kv.2))).reverse
          ++ ([] : List String)).contains kv.1) = true := by
      intro kv hkv
      show _
      have hmem := List.mem_filter.mp (by
        show kv ∈ ((state.manifestTargets.map (fun kv => kv.2)).foldl pfDiffStep
          { statePods := [], activeForwards := active0, toStart := [],
            toShutdown := [] }).activeForwards.filter
          (fun kv => ((state.manifestTargets.map (fun kv => kv.2)).foldl pfDiffStep
            { statePods := [], activeForwards := active0, toStart := [],
              toShutdown := [] }).statePods.contains kv.1)
        exact hkv)
      have h2 := hmem.2
      rwa [pfFold_statePods] at h2
    have : ((pfDiff state active0).2.2).filter
        (fun kv => !((pfEligibleIDs (state.manifestTargets.map (fun kv => kv.2))).reverse
          ++ ([] : List String)).contains kv.1) = [] := by
      rw [List.filter_eq_nil_iff]
      intro kv hkv
      have hs := hsub kv hkv
      simpa using hs
    rw [this]
    rfl
  · show (((state.manifestTargets.map (fun kv => kv.2)).foldl pfDiffStep
      { statePods := [], activeForwards := (pfDiff state active0).2.2, toStart := [],
        toShutdown := [] }).activeForwards.filter
      (fun kv => (((state.manifestTargets.map (fun kv => kv.2)).foldl pfDiffStep
        { statePods := [], activeForwards := (pfDiff state active0).2.2, toStart := [],
          toShutdown := [] }).statePods.contains kv.1))) = (pfDiff state active0).2.2
    rw [hA2]
    show (((pfDiff state active0).2.2).filter
      (fun kv => ((pfEligibleIDs (state.manifestTargets.map (fun kv => kv.2))).reverse
        ++ ([] : List String)).contains kv.1)) = (pfDiff state active0).2.2
    rw [List.filter_eq_self]
    intro kv hkv
    have hmem := List.mem_filter.mp (by
      show kv ∈ ((state.manifestTargets.map (fun kv => kv.2)).foldl pfDiffStep
        { statePods := [], activeForwards := active0, toStart := [],
          toShutdown := [] }).activeForwards.filter
        (fun kv => ((state.manifestTargets.map (fun kv => kv.2)).foldl pfDiffStep
          { statePods := [], activeForwards := active0, toStart := [],
            toShutdown := [] }).statePods.contains kv.1)
      exact hkv)
    have h2 := hmem.2
    rw [pfFold_statePods] at h2
    simpa using h2

/-- C8 witness for the amended claim: a single-target state with a running
pod and one resolvable forward; the second diff run is a no-op. -/
theorem pfDiff_idempotent_witness :
    (pfEligibleIDs (pfSingleState.manifestTargets.map (fun kv => kv.2))).Nodup ∧
    ((pfDiff pfSingleState (pfDiff pfSingleState []).2.2).1 = [] ∧
      (pfDiff pfSingleState (pfDiff pfSingleState []).2.2).2.1 = [] ∧
      (pfDiff pfSingleState (pfDiff pfSingleState []).2.2).2.2 =
        (pfDiff pfSingleState []).2.2) := by
  exact ⟨by decide, pfDiff_idempotent pfSingleState [] (by decide)⟩

end Tilt
